import Mathlib

/-!
# Verification of the playback-synchronization protocol of `sunulu`

This file gives a shallow embedding of the clock-based playback
reconciliation protocol implemented in `src/contexts/MusicContext.tsx`,
and proves or refutes the specification claims about it.

Modelling conventions:
* Wall-clock instants (`Date.now()`, Firestore timestamps converted with
  `toMillis()`) are integers counting milliseconds.
* Track positions (seconds, JS numbers) are rationals `ℚ`, which makes
  every arithmetic fact exact and decidable.
* Firestore document fields that may be absent (`null` / `undefined`)
  are `Option`s; the JS truthiness test on a string is modelled as
  "present and non-empty".
* The asynchronous pieces of the snapshot handler are serialized in the
  order in which the code initiates them; each externally visible action
  (transport command, Firestore write) becomes an `Effect` in that order.
-/

namespace Sunulu

/-- A member of a room's `participants` array (`{id, email, joinedAt}`). -/
structure Participant where
  id : String
  email : String
  joinedAt : Int
deriving Repr, DecidableEq

/-- A locally known track, as held in the client's queue
(`Song` in `MusicContext.tsx`; only the protocol-relevant fields). -/
structure Song where
  id : String
  title : String
  artist : String
  url : String
  duration : ℚ
deriving Repr, DecidableEq

/-- The room document as created and mutated by `joinRoom`/`leaveRoom`.
`lastActionTime` is the resolved server timestamp in milliseconds. -/
structure RoomDoc where
  id : String
  participants : List Participant
  currentTrackId : Option String
  isPlaying : Bool
  lastActionTime : Option Int
  lastActionSeekPosition : ℚ
  lastActionByUserId : Option String
  createdAt : Int
deriving Repr, DecidableEq

/-- The payload a snapshot listener receives (`doc.data()` in the
`onSnapshot` callback): the pivot fields, each possibly absent. -/
structure RoomData where
  currentTrackId : Option String
  isPlaying : Bool
  lastActionTime : Option Int
  lastActionSeekPosition : Option ℚ
  lastActionByUserId : Option String
deriving Repr, DecidableEq

/-- The local playback state the handler reads and updates
(the protocol-relevant fields of the React `state`). -/
structure LocalState where
  currentSong : Option Song
  isPlaying : Bool
  currentTime : ℚ
  duration : ℚ
  queue : List Song
deriving Repr, DecidableEq

/-- The status reported by the loaded sound object
(`getStatusAsync`): whether it is loaded, its position in
milliseconds, and whether it is playing. -/
structure SoundStatus where
  isLoaded : Bool
  positionMillis : Int
  isPlaying : Bool
deriving Repr, DecidableEq

/-- The identity/room context captured by the publishers: the
authenticated user's uid (`user.uid`) and the joined room id
(`currentRoom`), each possibly null. -/
structure ClientCtx where
  user : Option String
  currentRoom : Option String
deriving Repr, DecidableEq

/-- One partial field update written to the room document
(the `updateData` object of a publisher).  An `Option` field is the
value written when the field is included in the update, `none` when the
field is not part of the update.  Every publisher includes
`lastActionByUserId` (always the writer's uid) and requests a server
timestamp for `lastActionTime` (`setsLastActionTime`). -/
structure FieldUpdate where
  currentTrackId : Option String
  isPlaying : Option Bool
  lastActionSeekPosition : Option ℚ
  lastActionByUserId : String
  setsLastActionTime : Bool
deriving Repr, DecidableEq

/-- An externally visible action initiated by the client: a transport
command on the audio engine, or a Firestore write.  `loadAndPlay` is
`Audio.Sound.createAsync` with `shouldPlay: true` started at the given
position in seconds (the source passes no start position, hence 0);
`seekTo` is `setPositionAsync` (the source multiplies seconds by 1000
at this boundary); `stopUnload` is `stopAsync` followed by
`unloadAsync` on the previous sound. -/
inductive Effect where
  | stopUnload : Effect
  | loadAndPlay : String → ℚ → Effect
  | seekTo : ℚ → Effect
  | play : Effect
  | pause : Effect
  | publish : FieldUpdate → Effect
deriving Repr, DecidableEq

/-! ## Position Projector -/

/-- `calculateCurrentPosition` (MusicContext.tsx:493-499): the stored
pivot position plus the elapsed milliseconds divided by 1000.  The JS
guard `if (!lastActionTime) return lastActionSeekPosition` is the
`none` branch.  Note that the source adds the elapsed time
unconditionally: the function has no `isPlaying` parameter and no
clamping of a negative elapsed time. -/
def calculateCurrentPosition (now : Int) (lastActionTime : Option Int)
    (lastActionSeekPosition : ℚ) : ℚ :=
  match lastActionTime with
  | none => lastActionSeekPosition
  | some t => lastActionSeekPosition + ((now - t : Int) : ℚ) / 1000

/-- The inline position computation of the snapshot handler
(MusicContext.tsx:1074-1078): `lastActionSeekPosition + (Date.now() -
lastActionTime.toMillis()) / 1000`, computed regardless of the pivot's
`isPlaying` flag. -/
def handlerCalculatedPosition (now t : Int) (p : ℚ) : ℚ :=
  p + ((now - t : Int) : ℚ) / 1000

/-- The Position Projector as §4.1 of the specification words it
(written from the spec, for comparison with the source's projector):
`pivotPosition + max(0, (now - pivotTime)/1000)` when playing,
`pivotPosition` when paused. -/
def predictSpec (pivotTime : Int) (pivotPosition : ℚ) (isPlaying : Bool)
    (now : Int) : ℚ :=
  if isPlaying then pivotPosition + max 0 (((now - pivotTime : Int) : ℚ) / 1000)
  else pivotPosition

/-! ## Action Publisher -/

/-- `updatePlayPauseState` (MusicContext.tsx:502-524): guarded by
`if (!currentRoom || !user) return;` (a falsy room id — null or the
empty string — or a null user makes it a silent no-op), otherwise one
immediate write of `{isPlaying, lastActionTime: serverTimestamp(),
lastActionSeekPosition, lastActionByUserId: user.uid}`.  A store error
is caught and logged inside the function, so no error ever reaches the
caller; the returned list is the write the function issues. -/
def updatePlayPauseState (ctx : ClientCtx) (isPlaying : Bool)
    (currentSeekPosition : ℚ) : List FieldUpdate :=
  match ctx.currentRoom, ctx.user with
  | some room, some uid =>
      if room = "" then []
      else [⟨none, some isPlaying, some currentSeekPosition, uid, true⟩]
  | _, _ => []

/-- `updateTrack` (MusicContext.tsx:558-581): same guard, otherwise one
immediate write of `{currentTrackId: song.id, isPlaying: true,
lastActionTime: serverTimestamp(), lastActionSeekPosition: 0,
lastActionByUserId: user.uid}`. -/
def updateTrack (ctx : ClientCtx) (song : Song) : List FieldUpdate :=
  match ctx.currentRoom, ctx.user with
  | some room, some uid =>
      if room = "" then []
      else [⟨some song.id, some true, some 0, uid, true⟩]
  | _, _ => []

/-- The single pending debounce timer of `updateSeekPosition`
(`seekDebounceRef`): the instant at which it will fire (500 ms after
the call that armed it) and the seek position its callback captured. -/
structure PendingSeek where
  deadline : Int
  pos : ℚ
deriving Repr, DecidableEq

/-- The write the debounce timer's callback performs when it fires
(MusicContext.tsx:536-554): `{lastActionTime: serverTimestamp(),
lastActionSeekPosition: newSeekPosition, lastActionByUserId:
user.uid}`. -/
def seekWrite (uid : String) (pos : ℚ) : FieldUpdate :=
  ⟨none, none, some pos, uid, true⟩

/-- `updateSeekPosition` (MusicContext.tsx:527-555): guarded by
`if (!currentRoom || !user) return;` *before* touching the timer (a
no-op leaves any pending timer armed); otherwise it clears any pending
debounce timer (`clearTimeout`) and arms a new one 500 ms out carrying
the new position.  No write happens at call time — the write is
emitted when the timer fires.  Returns the new pending-timer state and
the (always empty) list of writes issued synchronously. -/
def updateSeekPosition (ctx : ClientCtx) (now : Int) (newSeekPosition : ℚ)
    (pending : Option PendingSeek) : Option PendingSeek × List FieldUpdate :=
  match ctx.currentRoom, ctx.user with
  | some room, some _ =>
      if room = "" then (pending, [])
      else (some ⟨now + 500, newSeekPosition⟩, [])
  | _, _ => (pending, [])

/-- The writes the event loop emits at instant `t`: a pending debounce
timer whose deadline has passed fires (its callback performs the seek
write) before any code scheduled at `t` runs. -/
def fireDueWrites (uid : String) (t : Int) (pending : Option PendingSeek) :
    List FieldUpdate :=
  match pending with
  | some ps => if ps.deadline ≤ t then [seekWrite uid ps.pos] else []
  | none => []

/-- Process a sequence of `updateSeekPosition` calls, each tagged with
the instant it occurs, for a client joined to room `room` as user
`uid`: at each call instant a due timer fires first, then the call
replaces the pending timer.  Returns all writes emitted during the
sequence and the timer left pending afterwards. -/
def runSeekCalls (uid room : String) (pending : Option PendingSeek) :
    List (Int × ℚ) → List FieldUpdate × Option PendingSeek
  | [] => ([], pending)
  | (t, v) :: rest =>
      let fired := fireDueWrites uid t pending
      let armed := (updateSeekPosition ⟨some uid, some room⟩ t v pending).1
      let next := runSeekCalls uid room armed rest
      (fired ++ next.1, next.2)

/-- The write the pending timer will emit once it is allowed to expire
(quiescence after the call sequence). -/
def flushPending (uid : String) (pending : Option PendingSeek) :
    List FieldUpdate :=
  match pending with
  | some ps => [seekWrite uid ps.pos]
  | none => []

/-- Call instants each fall inside the debounce window opened by the
previous call: every consecutive pair `(tᵢ, tᵢ₊₁)` satisfies
`tᵢ₊₁ < tᵢ + 500`. -/
def withinWindow : List (Int × ℚ) → Prop
  | [] => True
  | [_] => True
  | a :: b :: rest => b.1 < a.1 + 500 ∧ withinWindow (b :: rest)

/-! ## Remote Reconciler -/

/-- The protocol-relevant behaviour of `playSong`
(MusicContext.tsx:583-671) when invoked by the reconciler: stop and
unload the previous sound if one exists, create the new sound with
`shouldPlay: true` (no start position is passed, so playback starts at
position 0), optimistically set the local state to the new song playing
at time 0, and publish the track change via `updateTrack`. -/
def playSongModel (uid : String) (currentRoom : Option String)
    (st : LocalState) (sound : Option SoundStatus) (song : Song) :
    List Effect × LocalState :=
  ((if sound.isSome then [Effect.stopUnload] else [])
      ++ [Effect.loadAndPlay song.id 0]
      ++ (updateTrack ⟨some uid, currentRoom⟩ song).map Effect.publish,
   { st with currentSong := some song, isPlaying := true, currentTime := 0,
             duration := song.duration })

/-- The track-change step of the snapshot handler
(MusicContext.tsx:1055-1069): if `data.currentTrackId` is truthy (a
non-empty string) and differs from the locally loaded track's id, look
it up in the local queue; if found, `playSong` it; if not found, log
and skip. -/
def trackChangeStep (uid : String) (currentRoom : Option String)
    (st : LocalState) (sound : Option SoundStatus) (data : RoomData) :
    List Effect × LocalState :=
  match data.currentTrackId with
  | some tid =>
      if tid ≠ "" ∧ some tid ≠ st.currentSong.map Song.id then
        match st.queue.find? (fun s => s.id == tid) with
        | some song => playSongModel uid currentRoom st sound song
        | none => ([], st)
      else ([], st)
  | none => ([], st)

/-- The position step of the snapshot handler
(MusicContext.tsx:1072-1127): when both `lastActionTime` and
`lastActionSeekPosition` are present and a loaded sound exists, seek
unconditionally to the calculated position (no tolerance comparison
with the sound's reported position is made), set `currentTime`
accordingly, and issue `play`/`pause` only when `data.isPlaying`
differs from the handler's captured `state.isPlaying` (`stCmp`).
`stAcc` is the state the step's own updates compose onto. -/
def positionStep (stCmp stAcc : LocalState) (sound : Option SoundStatus)
    (now : Int) (data : RoomData) : List Effect × LocalState :=
  match data.lastActionTime, data.lastActionSeekPosition with
  | some t, some p =>
      let calculatedPosition := handlerCalculatedPosition now t p
      match sound with
      | some status =>
          if status.isLoaded then
            let base := { stAcc with currentTime := calculatedPosition }
            if data.isPlaying ≠ stCmp.isPlaying then
              if data.isPlaying then
                ([Effect.seekTo calculatedPosition, Effect.play],
                 { base with isPlaying := true })
              else
                ([Effect.seekTo calculatedPosition, Effect.pause],
                 { base with isPlaying := false })
            else ([Effect.seekTo calculatedPosition], base)
          else ([], stAcc)
      | none => ([], stAcc)
  | _, _ => ([], stAcc)

/-- The `onSnapshot` callback of `joinRoom` (MusicContext.tsx:1040-1132)
for an existing document: discard self-echoes
(`data.lastActionByUserId === user.uid`) before anything else, then run
the track-change step and the position step.  `uid` is the
authenticated user's id, `currentRoom` the room id the handler's
closure captured, `st` the captured local state, `sound` the current
sound's status (none when no sound is loaded), `now` the local clock at
delivery. -/
def reconcile (uid : String) (currentRoom : Option String)
    (st : LocalState) (sound : Option SoundStatus) (now : Int)
    (data : RoomData) : List Effect × LocalState :=
  if data.lastActionByUserId = some uid then ([], st)
  else
    let step1 := trackChangeStep uid currentRoom st sound data
    let step2 := positionStep st step1.2 sound now data
    (step1.1 ++ step2.1, step2.2)

/-! ## Room Membership Manager -/

/-- The store mutation of `joinRoom` (MusicContext.tsx:990-1031): if
the room document is absent, create it with the caller as sole
participant and the initial pivot `(isPlaying := false,
lastActionSeekPosition := 0, lastActionByUserId := null)`; if present,
append `{id, email, joinedAt: Date.now()}` to `participants` only when
the caller is not already among them (the whole mutated array is
written back, touching no other field).  `now` is the client clock,
`snow` the resolved server timestamp. -/
def joinRoomStore (uid email roomId : String) (now snow : Int)
    (room : Option RoomDoc) : RoomDoc :=
  match room with
  | none =>
      { id := roomId
        participants := [⟨uid, email, now⟩]
        currentTrackId := none
        isPlaying := false
        lastActionTime := some snow
        lastActionSeekPosition := 0
        lastActionByUserId := none
        createdAt := now }
  | some r =>
      if (r.participants.find? (fun p => p.id == uid)).isSome then r
      else { r with participants := r.participants ++ [⟨uid, email, now⟩] }

/-- The store mutation of `leaveRoom` (MusicContext.tsx:1141-1160): if
the room document exists, write back `participants` with the caller
filtered out, and nothing else; the document itself is never deleted. -/
def leaveRoomStore (uid : String) (room : Option RoomDoc) : Option RoomDoc :=
  match room with
  | none => none
  | some r =>
      some { r with participants := r.participants.filter (fun p => !(p.id == uid)) }

/-- The number of entries for user `uid` in a participants list. -/
def countUser (uid : String) (l : List Participant) : Nat :=
  (l.filter (fun p => p.id == uid)).length

/-- The pivot part of a room document: the five fields the
reconciliation protocol reads. -/
def roomPivot (r : RoomDoc) : Option String × Bool × Option Int × ℚ × Option String :=
  (r.currentTrackId, r.isPlaying, r.lastActionTime, r.lastActionSeekPosition,
   r.lastActionByUserId)

/-! ## Sample data used by concrete evaluations -/

/-- A sample track with id `"x"`. -/
def songX : Song := ⟨"x", "Track X", "Artist", "url-x", 180⟩

/-- A sample track with id `"y"`. -/
def songY : Song := ⟨"y", "Track Y", "Artist", "url-y", 200⟩

/-- A sample local state: track `"x"` loaded, paused at 10 s, both
sample tracks in the queue. -/
def stPausedX : LocalState := ⟨some songX, false, 10, 180, [songX, songY]⟩

/-- A sample local state: track `"x"` loaded and playing at 15 s. -/
def stPlayingX : LocalState := ⟨some songX, true, 15, 180, [songX, songY]⟩

/-! ## Claims about the Remote Reconciler -/

/-- C2: a change notification whose `lastActionByUserId` equals the
local user's id is discarded before any processing: the reconciler
issues no transport command and no write, and the local state is
returned unchanged, for any values of the other fields. -/
theorem self_echo_suppressed (uid : String) (currentRoom : Option String)
    (st : LocalState) (sound : Option SoundStatus) (now : Int)
    (data : RoomData) (h : data.lastActionByUserId = some uid) :
    reconcile uid currentRoom st sound now data = ([], st) := by
  simp [reconcile, h]

/-- Witness for C2 at a concrete self-tagged notification. -/
theorem self_echo_suppressed_witness :
    (⟨some "x", true, some 0, some 3, some "A"⟩ : RoomData).lastActionByUserId
        = some "A" ∧
    reconcile "A" (some "r") stPlayingX (some ⟨true, 3000, true⟩) 5000
        ⟨some "x", true, some 0, some 3, some "A"⟩ = ([], stPlayingX) :=
  ⟨rfl, self_echo_suppressed "A" (some "r") stPlayingX (some ⟨true, 3000, true⟩)
    5000 ⟨some "x", true, some 0, some 3, some "A"⟩ rfl⟩

/-- C1: evaluation of the handler at the failing input.  For the pivot
`(isPlaying := false, lastActionTime := 0 ms, lastActionSeekPosition :=
10 s)` received from another user at `now = 5000 ms` with the same
track loaded and paused locally, the reconciler seeks the paused track
to 15 s, not to `lastActionSeekPosition = 10 s`: the code adds the
elapsed time to the pivot position without consulting `isPlaying`. -/
theorem paused_pivot_adds_elapsed_time :
    (reconcile "A" (some "r") stPausedX (some ⟨true, 10000, false⟩) 5000
        ⟨some "x", false, some 0, some 10, some "B"⟩).1
      = [Effect.seekTo 15] ∧ (15 : ℚ) ≠ 10 := by
  have hc : handlerCalculatedPosition 5000 0 10 = 15 := by
    norm_num [handlerCalculatedPosition]
  constructor
  · simp [reconcile, trackChangeStep, positionStep, stPausedX, songX, hc]
  · norm_num

/-- C3 counterexample: at pivot time `t = 1000 ms`, pivot position
`p = 5 s` and `now = 0 ms` (local clock behind the server timestamp),
the code projects `4 s`, while the claimed formula
`p + max(0, (now - t)/1000)` gives `5 s` — the source has no
`max(0, ·)` clamp. -/
theorem projector_unclamped_counterexample :
    handlerCalculatedPosition 0 1000 5 = 4 ∧
    calculateCurrentPosition 0 (some 1000) 5 = 4 ∧
    handlerCalculatedPosition 0 1000 5 ≠ predictSpec 1000 5 true 0 := by
  have hmax : max (0 : ℚ) (((0 - 1000 : Int) : ℚ) / 1000) = 0 := by norm_num
  refine ⟨?_, ?_, ?_⟩
  · norm_num [handlerCalculatedPosition]
  · norm_num [calculateCurrentPosition]
  · norm_num [handlerCalculatedPosition, predictSpec, hmax]

/-- C3 (amended): for a playing pivot the projected position is
`p + (now - t)/1000` with no clamping (it can fall below `p` when
`now < t`); the handler's inline computation agrees with
`calculateCurrentPosition`; and for every `now ≥ t` it coincides with
the claimed formula `p + max(0, (now - t)/1000)`. -/
theorem predicted_position_playing (t now : Int) (p : ℚ) (h : t ≤ now) :
    handlerCalculatedPosition now t p = p + ((now - t : Int) : ℚ) / 1000 ∧
    calculateCurrentPosition now (some t) p = handlerCalculatedPosition now t p ∧
    handlerCalculatedPosition now t p = predictSpec t p true now := by
  refine ⟨rfl, rfl, ?_⟩
  unfold handlerCalculatedPosition predictSpec
  have h0 : (0 : ℚ) ≤ ((now : ℚ) - (t : ℚ)) / 1000 := by
    apply div_nonneg
    · rw [sub_nonneg]
      exact_mod_cast h
    · norm_num
  simp [max_eq_right h0]

/-- Witness for C3 (amended) at `t = 0`, `now = 2000`, `p = 7`. -/
theorem predicted_position_playing_witness :
    (0 : Int) ≤ 2000 ∧
    (handlerCalculatedPosition 2000 0 7 = 7 + ((2000 - 0 : Int) : ℚ) / 1000 ∧
     calculateCurrentPosition 2000 (some 0) 7 = handlerCalculatedPosition 2000 0 7 ∧
     handlerCalculatedPosition 2000 0 7 = predictSpec 0 7 true 2000) :=
  ⟨by decide, predicted_position_playing 0 2000 7 (by decide)⟩

/-- C5 counterexample: a notification from another user for track
`"y"` (present in the queue) carrying `lastActionSeekPosition = 42 s`
makes the reconciler load and play `"y"` starting at position 0, not at
42 s; no load command at 42 s is issued.  (The sound is not yet loaded
here, so the position step is silent and the effects are exactly the
track-change ones.) -/
theorem track_change_ignores_pivot_position :
    (reconcile "A" (some "r") stPlayingX none 0
        ⟨some "y", true, some 0, some 42, some "B"⟩).1
      = [Effect.loadAndPlay "y" 0,
         Effect.publish ⟨some "y", some true, some 0, "A", true⟩] ∧
    Effect.loadAndPlay "y" 42 ∉
      (reconcile "A" (some "r") stPlayingX none 0
        ⟨some "y", true, some 0, some 42, some "B"⟩).1 := by
  refine ⟨?_, ?_⟩ <;> decide

/-- C5 (amended): a change notification from another user whose
`currentTrackId` is a non-empty id differing from the locally loaded
track and resolving in the local queue makes the reconciler load and
play the resolved track starting at position 0 (the beginning), for
any current local transport state; the notification's
`lastActionSeekPosition` is not used as the start position. -/
theorem track_change_loads_and_plays (uid : String)
    (currentRoom : Option String) (st : LocalState)
    (sound : Option SoundStatus) (now : Int) (data : RoomData)
    (tid : String) (song : Song)
    (hSelf : data.lastActionByUserId ≠ some uid)
    (hTid : data.currentTrackId = some tid)
    (hNe : tid ≠ "")
    (hDiff : some tid ≠ st.currentSong.map Song.id)
    (hFind : st.queue.find? (fun s => s.id == tid) = some song) :
    Effect.loadAndPlay song.id 0
      ∈ (reconcile uid currentRoom st sound now data).1 := by
  have h1 : Effect.loadAndPlay song.id 0
      ∈ (trackChangeStep uid currentRoom st sound data).1 := by
    simp only [trackChangeStep, hTid, hFind]
    rw [if_pos ⟨hNe, hDiff⟩]
    simp [playSongModel]
  simp only [reconcile, if_neg hSelf]
  exact List.mem_append_left _ h1

/-- Witness for C5 (amended) at a concrete track-change notification. -/
theorem track_change_loads_and_plays_witness :
    Effect.loadAndPlay songY.id 0
      ∈ (reconcile "A" (some "r") stPlayingX none 0
          ⟨some "y", true, some 0, some 42, some "B"⟩).1 :=
  track_change_loads_and_plays "A" (some "r") stPlayingX none 0
    ⟨some "y", true, some 0, some 42, some "B"⟩ "y" songY
    (by decide) rfl (by decide) (by decide) (by decide)

/-- C6 counterexample: the sound's reported position (15000 ms = 15 s)
is exactly equal to the predicted position, yet the reconciler still
issues the seek command — the source performs no tolerance comparison
with the reported position before seeking. -/
theorem seek_issued_at_zero_difference :
    ((15000 : Int) : ℚ) / 1000 = handlerCalculatedPosition 5000 0 10 ∧
    (reconcile "A" (some "r") stPlayingX (some ⟨true, 15000, true⟩) 5000
        ⟨some "x", true, some 0, some 10, some "B"⟩).1
      = [Effect.seekTo (handlerCalculatedPosition 5000 0 10)] := by
  constructor
  · norm_num [handlerCalculatedPosition]
  · simp [reconcile, trackChangeStep, positionStep, stPlayingX, songX]

/-- C6 (amended): whenever a non-self notification carries both pivot
fields and a loaded sound exists, the reconciler seeks to the predicted
position unconditionally — for every reported sound position, including
one equal to the predicted position; no tolerance check is performed
(only the play/pause command is conditioned, on `isPlaying` differing
from the captured local state). -/
theorem seek_unconditional (uid : String) (currentRoom : Option String)
    (st : LocalState) (status : SoundStatus) (now t : Int) (p : ℚ)
    (data : RoomData)
    (hSelf : data.lastActionByUserId ≠ some uid)
    (hT : data.lastActionTime = some t)
    (hP : data.lastActionSeekPosition = some p)
    (hLoaded : status.isLoaded = true) :
    Effect.seekTo (handlerCalculatedPosition now t p)
      ∈ (reconcile uid currentRoom st (some status) now data).1 := by
  have h2 : Effect.seekTo (handlerCalculatedPosition now t p)
      ∈ (positionStep st (trackChangeStep uid currentRoom st (some status) data).2
          (some status) now data).1 := by
    simp only [positionStep, hT, hP, hLoaded]
    by_cases hb : data.isPlaying = st.isPlaying
    · simp [hb]
    · by_cases hd : data.isPlaying <;> simp [hb, hd] <;> split <;> simp
  simp only [reconcile, if_neg hSelf]
  exact List.mem_append_right _ h2

/-- Witness for C6 (amended): the seek command is present even when the
reported position already equals the predicted one. -/
theorem seek_unconditional_witness :
    Effect.seekTo (handlerCalculatedPosition 5000 0 10)
      ∈ (reconcile "A" (some "r") stPlayingX (some ⟨true, 15000, true⟩) 5000
          ⟨some "x", true, some 0, some 10, some "B"⟩).1 :=
  seek_unconditional "A" (some "r") stPlayingX ⟨true, 15000, true⟩ 5000 0 10
    ⟨some "x", true, some 0, some 10, some "B"⟩ (by decide) rfl rfl rfl

/-- C9: processing another user's track change re-publishes a fresh
track-change fact under the receiving client's identity: whenever the
reconciler resolves a differing `currentTrackId` in the local queue
(and the handler's captured room id is a real room), its effects
include a write with `currentTrackId` set to the resolved track's id,
`isPlaying = true`, `lastActionSeekPosition = 0` and
`lastActionByUserId` equal to the *local* user's id. -/
theorem remote_track_change_republishes (uid rid : String)
    (st : LocalState) (sound : Option SoundStatus) (now : Int)
    (data : RoomData) (tid : String) (song : Song)
    (hSelf : data.lastActionByUserId ≠ some uid)
    (hTid : data.currentTrackId = some tid)
    (hNe : tid ≠ "")
    (hDiff : some tid ≠ st.currentSong.map Song.id)
    (hFind : st.queue.find? (fun s => s.id == tid) = some song)
    (hRid : rid ≠ "") :
    Effect.publish ⟨some song.id, some true, some 0, uid, true⟩
      ∈ (reconcile uid (some rid) st sound now data).1 := by
  have h1 : Effect.publish ⟨some song.id, some true, some 0, uid, true⟩
      ∈ (trackChangeStep uid (some rid) st sound data).1 := by
    simp only [trackChangeStep, hTid, hFind]
    rw [if_pos ⟨hNe, hDiff⟩]
    simp [playSongModel, updateTrack, hRid]
  simp only [reconcile, if_neg hSelf]
  exact List.mem_append_left _ h1

/-- Witness for C9 at a concrete remote track-change notification. -/
theorem remote_track_change_republishes_witness :
    Effect.publish ⟨some songY.id, some true, some 0, "A", true⟩
      ∈ (reconcile "A" (some "r") stPlayingX none 0
          ⟨some "y", true, some 0, some 42, some "B"⟩).1 :=
  remote_track_change_republishes "A" "r" stPlayingX none 0
    ⟨some "y", true, some 0, some 42, some "B"⟩ "y" songY
    (by decide) rfl (by decide) (by decide) (by decide) (by decide)

/-- C10: every publish operation — play/pause, seek, track change — is
a silent no-op when the client has no current room or no authenticated
user: no write is issued, the pending debounce timer is left untouched,
and (each function being total) no error reaches the caller. -/
theorem publish_noop_outside_room (ctx : ClientCtx) (b : Bool)
    (pos pos2 : ℚ) (now : Int) (pending : Option PendingSeek) (song : Song)
    (h : ctx.currentRoom = none ∨ ctx.user = none) :
    updatePlayPauseState ctx b pos = [] ∧
    updateSeekPosition ctx now pos2 pending = (pending, []) ∧
    updateTrack ctx song = [] := by
  obtain ⟨u, r⟩ := ctx
  rcases h with h | h <;> simp only at h <;> subst h <;>
    first
    | (cases u <;>
        simp [updatePlayPauseState, updateSeekPosition, updateTrack])
    | (cases r <;>
        simp [updatePlayPauseState, updateSeekPosition, updateTrack])

/-- Witness for C10 with neither a room nor a user. -/
theorem publish_noop_outside_room_witness :
    ((⟨none, none⟩ : ClientCtx).currentRoom = none ∨
      (⟨none, none⟩ : ClientCtx).user = none) ∧
    (updatePlayPauseState ⟨none, none⟩ true 3 = [] ∧
     updateSeekPosition ⟨none, none⟩ 0 7 none = (none, []) ∧
     updateTrack ⟨none, none⟩ songX = []) :=
  ⟨Or.inl rfl,
   publish_noop_outside_room ⟨none, none⟩ true 3 7 0 none songX (Or.inl rfl)⟩

/-! ## Debounce coalescing -/

/-- Auxiliary: as long as every successive call arrives strictly before
the pending timer's deadline, the timer never fires: the sequence emits
no write and the timer left pending afterwards carries the last call's
position and deadline. -/
theorem runSeekCalls_coalesce (uid room : String) (hRoom : room ≠ "") :
    ∀ (rest : List (Int × ℚ)) (t : Int) (v : ℚ) (d : Int) (v0 : ℚ)
      (tN : Int) (vN : ℚ),
      withinWindow ((t, v) :: rest) → t < d →
      ((t, v) :: rest).getLast? = some (tN, vN) →
      runSeekCalls uid room (some ⟨d, v0⟩) ((t, v) :: rest)
        = ([], some ⟨tN + 500, vN⟩) := by
  intro rest
  induction rest with
  | nil =>
    intro t v d v0 tN vN _ hlt hlast
    simp only [List.getLast?_singleton, Option.some.injEq, Prod.mk.injEq] at hlast
    obtain ⟨h1, h2⟩ := hlast
    subst h1
    subst h2
    simp [runSeekCalls, fireDueWrites, updateSeekPosition, hRoom, not_le.mpr hlt]
  | cons b rest2 ih =>
    intro t v d v0 tN vN hw hlt hlast
    obtain ⟨tb, vb⟩ := b
    obtain ⟨hgap, hw2⟩ := hw
    rw [List.getLast?_cons_cons] at hlast
    have hnext := ih tb vb (t + 500) v tN vN hw2 hgap hlast
    have hfire : fireDueWrites uid t (some ⟨d, v0⟩) = [] := by
      simp [fireDueWrites, not_le.mpr hlt]
    have harm : (updateSeekPosition ⟨some uid, some room⟩ t v (some ⟨d, v0⟩)).1
        = some ⟨t + 500, v⟩ := by
      simp [updateSeekPosition, hRoom]
    rw [runSeekCalls]
    simp only [hfire, harm, hnext]
    simp

/-- C4: a sequence of N ≥ 1 seek-publish calls issued within a single
debounce window (each call strictly less than 500 ms after the
previous one) by a client in a room emits no write while the calls keep
coming, leaves exactly one timer pending, and that timer's single write
carries the position of the last call; moreover each call replaces any
pending timer with a fresh one 500 ms out, regardless of what was
pending. -/
theorem debounce_coalesces (uid room : String) (hRoom : room ≠ "")
    (calls : List (Int × ℚ)) (tN : Int) (vN : ℚ)
    (hw : withinWindow calls) (hlast : calls.getLast? = some (tN, vN)) :
    (runSeekCalls uid room none calls).1 = [] ∧
    flushPending uid (runSeekCalls uid room none calls).2
      = [seekWrite uid vN] ∧
    ∀ (p : Option PendingSeek) (t : Int) (v : ℚ),
      (updateSeekPosition ⟨some uid, some room⟩ t v p).1 = some ⟨t + 500, v⟩ := by
  have hcancel : ∀ (p : Option PendingSeek) (t : Int) (v : ℚ),
      (updateSeekPosition ⟨some uid, some room⟩ t v p).1 = some ⟨t + 500, v⟩ := by
    intro p t v
    simp [updateSeekPosition, hRoom]
  cases calls with
  | nil => simp at hlast
  | cons a rest =>
    obtain ⟨t, v⟩ := a
    cases rest with
    | nil =>
      simp only [List.getLast?_singleton, Option.some.injEq, Prod.mk.injEq] at hlast
      obtain ⟨h1, h2⟩ := hlast
      subst h1
      subst h2
      refine ⟨?_, ?_, hcancel⟩ <;>
        simp [runSeekCalls, fireDueWrites, updateSeekPosition, hRoom,
          flushPending]
    | cons b rest2 =>
      obtain ⟨tb, vb⟩ := b
      obtain ⟨hgap, hw2⟩ := hw
      rw [List.getLast?_cons_cons] at hlast
      have hnext := runSeekCalls_coalesce uid room hRoom rest2 tb vb
        (t + 500) v tN vN hw2 hgap hlast
      have hfire : fireDueWrites uid t none = [] := by
        simp [fireDueWrites]
      have harm : (updateSeekPosition ⟨some uid, some room⟩ t v none).1
          = some ⟨t + 500, v⟩ := by
        simp [updateSeekPosition, hRoom]
      refine ⟨?_, ?_, hcancel⟩ <;>
        · rw [runSeekCalls]
          simp only [hfire, harm, hnext]
          simp [flushPending]

/-- Witness for C4: three calls 0 ms, 100 ms and 300 ms into the
window coalesce into the single write carrying the last position 9. -/
theorem debounce_coalesces_witness :
    ("r" : String) ≠ "" ∧ withinWindow [((0 : Int), (3 : ℚ)), (100, 7), (300, 9)] ∧
    [((0 : Int), (3 : ℚ)), (100, 7), (300, 9)].getLast? = some (300, 9) ∧
    ((runSeekCalls "A" "r" none [((0 : Int), (3 : ℚ)), (100, 7), (300, 9)]).1 = [] ∧
     flushPending "A"
        (runSeekCalls "A" "r" none [((0 : Int), (3 : ℚ)), (100, 7), (300, 9)]).2
       = [seekWrite "A" 9] ∧
     ∀ (p : Option PendingSeek) (t : Int) (v : ℚ),
       (updateSeekPosition ⟨some "A", some "r"⟩ t v p).1 = some ⟨t + 500, v⟩) :=
  ⟨by decide, by norm_num [withinWindow], rfl,
   debounce_coalesces "A" "r" (by decide) [((0 : Int), (3 : ℚ)), (100, 7), (300, 9)]
     300 9 (by norm_num [withinWindow]) rfl⟩

/-! ## Room membership -/

/-- Appending the caller's fresh entry raises their participant count
by exactly one. -/
lemma countUser_append_self (uid email : String) (now : Int)
    (l : List Participant) :
    countUser uid (l ++ [⟨uid, email, now⟩]) = countUser uid l + 1 := by
  unfold countUser
  simp [List.filter_append]

/-- A failed lookup means the caller has no entry at all. -/
lemma countUser_eq_zero_of_find?_eq_none (uid : String) (l : List Participant)
    (h : l.find? (fun p => p.id == uid) = none) : countUser uid l = 0 := by
  unfold countUser
  simp only [List.length_eq_zero]
  rw [List.filter_eq_nil_iff]
  intro a ha
  have := List.find?_eq_none.mp h a ha
  simpa using this

/-- A successful lookup means the caller has at least one entry. -/
lemma countUser_pos_of_find?_isSome (uid : String) (l : List Participant)
    (h : (l.find? (fun p => p.id == uid)).isSome = true) :
    0 < countUser uid l := by
  obtain ⟨a, ha⟩ := Option.isSome_iff_exists.mp h
  have hpa := List.find?_some ha
  have hmem := List.mem_of_find?_eq_some ha
  unfold countUser
  rw [List.length_pos]
  intro hnil
  have : a ∈ List.filter (fun p => p.id == uid) l :=
    List.mem_filter.mpr ⟨hmem, hpa⟩
  simp [hnil] at this

/-- After one join, a caller who had at most one roster entry has
exactly one. -/
lemma countUser_join (uid email roomId : String) (now snow : Int)
    (room : Option RoomDoc)
    (h : ∀ r, room = some r → countUser uid r.participants ≤ 1) :
    countUser uid (joinRoomStore uid email roomId now snow room).participants
      = 1 := by
  cases room with
  | none => simp [joinRoomStore, countUser]
  | some r =>
    have hr := h r rfl
    by_cases hc : (r.participants.find? (fun p => p.id == uid)).isSome = true
    · have h1 := countUser_pos_of_find?_isSome uid r.participants hc
      simp only [joinRoomStore, if_pos hc]
      omega
    · have h0 := countUser_eq_zero_of_find?_eq_none uid r.participants
        (by simpa using hc)
      simp only [joinRoomStore, if_neg hc]
      rw [countUser_append_self]
      omega

/-- C7: joining is idempotent with respect to roster membership — from
any store state in which the caller has at most one roster entry (in
particular from an absent room), two successive joins with the same
room id and user id leave exactly one `participants` entry for that
user. -/
theorem join_idempotent (uid email roomId : String) (n1 n2 s1 s2 : Int)
    (room : Option RoomDoc)
    (h : ∀ r, room = some r → countUser uid r.participants ≤ 1) :
    countUser uid (joinRoomStore uid email roomId n2 s2
        (some (joinRoomStore uid email roomId n1 s1 room))).participants
      = 1 := by
  apply countUser_join
  intro r hr
  have h1 := countUser_join uid email roomId n1 s1 room h
  cases hr
  omega

/-- Witness for C7: joining an absent room twice leaves one entry. -/
theorem join_idempotent_witness :
    (∀ r, (none : Option RoomDoc) = some r →
        countUser "A" r.participants ≤ 1) ∧
    countUser "A" (joinRoomStore "A" "a@example.com" "r" 2 20
        (some (joinRoomStore "A" "a@example.com" "r" 1 10 none))).participants
      = 1 :=
  ⟨fun _ h => (nomatch h),
   join_idempotent "A" "a@example.com" "r" 1 2 10 20 none (fun _ h => (nomatch h))⟩

/-- A sample populated room document. -/
def sampleRoom : RoomDoc :=
  ⟨"r", [⟨"A", "a@example.com", 1⟩, ⟨"B", "b@example.com", 2⟩],
   some "x", true, some 1000, 10, some "B", 0⟩

/-- C8: leave removes only the caller from `participants` and changes
no other field: the room document still exists afterwards, its pivot
(currentTrackId, isPlaying, lastActionTime, lastActionSeekPosition,
lastActionByUserId) reads back unchanged, the surviving participants
list is exactly the old one with the caller filtered out, and the
caller is absent from it. -/
theorem leave_preserves_room (uid : String) (r : RoomDoc) :
    ∃ r', leaveRoomStore uid (some r) = some r' ∧
      roomPivot r' = roomPivot r ∧ r'.id = r.id ∧
      r'.participants = r.participants.filter (fun p => !(p.id == uid)) ∧
      ∀ p ∈ r'.participants, p.id ≠ uid := by
  refine ⟨_, rfl, rfl, rfl, rfl, ?_⟩
  intro p hp
  have := List.of_mem_filter hp
  simpa using this

/-- Witness for C8: the last-but-one participant of the sample room
leaves; the document and its pivot survive. -/
theorem leave_preserves_room_witness :
    ∃ r', leaveRoomStore "A" (some sampleRoom) = some r' ∧
      roomPivot r' = roomPivot sampleRoom ∧ r'.id = sampleRoom.id ∧
      r'.participants
        = sampleRoom.participants.filter (fun p => !(p.id == "A")) ∧
      ∀ p ∈ r'.participants, p.id ≠ "A" :=
  leave_preserves_room "A" sampleRoom

end Sunulu
